import Mathlib

/-!
# custom-error-pages: a verification development

Shallow embedding of `main.go` (package `main`) of the custom error page
backend, followed by theorems about it.

Conventions of the embedding.

* Go strings and byte slices are Lean strings. The program concatenates,
  compares and copies them; the one routine that looks at single bytes is
  `strconv.Atoi`, which rejects every byte that is not an ASCII digit or a
  leading sign, so a character outside ASCII is rejected here exactly as
  its UTF-8 bytes are rejected there.
* Go `int` is 64 bits wide (`strconv.IntSize = 64`) and is embedded in `Int`;
  the only place where the width matters is the range check of `Atoi`.
* Logging (`log.Printf`, `log.Print`) has no effect on a response and is
  left out.
* The standard library routines the handler calls (`strconv.Atoi`,
  `fmt.Sprintf`, `strings.HasPrefix`, `textproto.CanonicalMIMEHeaderKey`,
  `http.Header`, the `net/http` server response writer, `http.NotFound`,
  `io.Copy`) are embedded from their Go implementation, restricted to the
  behaviour the handler can reach.
* What the host provides is collected in `Host`: the process environment,
  the MIME registry behind `mime.ExtensionsByType`, the file system behind
  `os.Open`, and `http.DetectContentType`.
* A response is what the client gets: status, the header lines that come
  from the handler or from content sniffing, and body. A handler that panics
  leaves the client without a response.

The definitions come first, then facts about the library routines and about
the handler, then the claims `C1` to `C10` in order.
-/

namespace CustomErrorPages

/-! ## Constants of `main.go` -/

/-- FormatHeader is the header name for extracting format. -/
def FormatHeader : String := "X-Format"
/-- CodeHeader is the header name for extracting status code. -/
def CodeHeader : String := "X-Code"
/-- ContentType is the header name for content type. -/
def ContentType : String := "Content-Type"
/-- OriginalURI is the header name to the original url. -/
def OriginalURI : String := "X-Original-URI"
/-- Namespace is the header name to the namespace the controller runs in. -/
def Namespace : String := "X-Namespace"
/-- IngressName is the header name to the name of the ingress. -/
def IngressName : String := "X-Ingress-Name"
/-- ServiceName is the header name to the current service with errors. -/
def ServiceName : String := "X-Service-Name"
/-- ServicePort is the header name to the port of the service with errors. -/
def ServicePort : String := "X-Service-Port"
/-- RequestID is the header name to the request id of the request. -/
def RequestID : String := "X-Request-ID"
/-- ErrFilesPath is the environment variable with the path to the error pages. -/
def ErrFilesPath : String := "ERROR_FILES_PATH"

/-! ## `net/textproto` and `http.Header` -/

/-- The bytes allowed in a header field name (`validHeaderFieldByte`):
ASCII letters, digits and the token punctuation of RFC 7230. -/
def validHeaderFieldByte (c : Char) : Bool :=
  c.isAlphanum ||
    [Char.ofNat 33, Char.ofNat 35, Char.ofNat 36, Char.ofNat 37, Char.ofNat 38,
     Char.ofNat 39, Char.ofNat 42, Char.ofNat 43, Char.ofNat 45, Char.ofNat 46,
     Char.ofNat 94, Char.ofNat 95, Char.ofNat 96, Char.ofNat 124,
     Char.ofNat 126].contains c

/-- The rewriting loop of `canonicalMIMEHeaderKey`: upper case for the first
letter and for a letter after a dash, lower case elsewhere. -/
def canonicalLoop : Bool → List Char → List Char
  | _, [] => []
  | upper, c :: cs =>
    let c1 := if upper && c.isLower then c.toUpper
              else if !upper && c.isUpper then c.toLower else c
    c1 :: canonicalLoop (c1 == '-') cs

/-- The function `textproto.CanonicalMIMEHeaderKey`: a key holding a byte
that is not valid in a field name is returned unchanged, any other key is
put in canonical form. -/
def CanonicalMIMEHeaderKey (s : String) : String :=
  if s.data.all validHeaderFieldByte then String.mk (canonicalLoop true s.data) else s

/-- The type `http.Header`, a `map[string][]string`: a key that is not in
the map reads as `none`. -/
abbrev Header := String → Option (List String)

/-- The empty header map. -/
def Header.empty : Header := fun _ => none

/-- The method `Header.Get`: the first value stored under the canonical form
of the key, and the empty string when there is none. -/
def Header.Get (h : Header) (key : String) : String :=
  match h (CanonicalMIMEHeaderKey key) with
  | some (v :: _) => v
  | _ => ""

/-- The method `Header.Set`: the entry under the canonical form of the key
is replaced by the single value. -/
def Header.Set (h : Header) (key value : String) : Header :=
  fun k => if k = CanonicalMIMEHeaderKey key then some [value] else h k

/-- The method `Header.Del`: the entry under the canonical form of the key
is removed. -/
def Header.Del (h : Header) (key : String) : Header :=
  fun k => if k = CanonicalMIMEHeaderKey key then none else h k

/-- The part of `http.Request` the program reads. -/
structure Request where
  /-- The request method. -/
  Method : String
  /-- The request header. -/
  Header : Header

/-! ## `strconv` -/

/-- The digit loop of `strconv.ParseUint` in base 10. A byte that is not a
decimal digit is a syntax error (`none`). The accumulator is a natural
number, so the overflow of the Go loop shows as a large value, which `Atoi`
rejects in its range check. -/
def parseDecimal : List Char → Nat → Option Nat
  | [], n => some n
  | c :: cs, n =>
    if '0' ≤ c ∧ c ≤ '9' then parseDecimal cs (n * 10 + (c.toNat - '0'.toNat)) else none

/-- The function `strconv.Atoi`, which is `ParseInt(s, 10, 0)`; `none` stands
for a returned error, whether of syntax or of range. The empty string is
an error, a leading `+` or `-` is picked off, the rest has to be a non
empty run of decimal digits, and the value has to fit a signed 64 bit
integer. -/
def Atoi (s : String) : Option Int :=
  match s.data with
  | [] => none
  | c :: cs =>
    let neg := c == '-'
    let digits := if c == '+' || c == '-' then cs else c :: cs
    if digits.isEmpty then none
    else
      match parseDecimal digits 0 with
      | none => none
      | some un =>
        let cutoff : Nat := 2 ^ 63
        if !neg && un ≥ cutoff then none
        else if neg && un > cutoff then none
        else some (if neg then -(un : Int) else (un : Int))

/-- The digit loop of `strconv.FormatInt` in base 10 (`formatBits`): digits
are produced from the least significant one and put in front of what is
already there. The first argument bounds the number of rounds; `u + 1`
rounds are always enough. -/
def formatBits : Nat → Nat → List Char → List Char
  | 0, _, acc => acc
  | fuel + 1, u, acc =>
    if u ≥ 10 then formatBits fuel (u / 10) (Char.ofNat ('0'.toNat + u % 10) :: acc)
    else Char.ofNat ('0'.toNat + u) :: acc

/-- The function `strconv.FormatInt(i, 10)`, which is how `fmt` prints an
`int` under the verb `%v`. -/
def FormatInt (i : Int) : String :=
  if i < 0 then String.mk ('-' :: formatBits (i.natAbs + 1) i.natAbs [])
  else String.mk (formatBits (i.natAbs + 1) i.natAbs [])

/-! ## `strings` and `fmt` -/

/-- The function `strings.HasPrefix`:
`len(s) >= len(p) && s[:len(p)] == p`. -/
def HasPrefix (s p : String) : Bool :=
  decide (s.data.length ≥ p.data.length) && (s.data.take p.data.length == p.data)

/-- An operand of `fmt.Sprintf`: the program passes strings and ints. -/
inductive Arg where
  | str (s : String)
  | int (i : Int)

/-- The verb `%v` on an operand. -/
def Arg.format : Arg → String
  | .str s => s
  | .int i => FormatInt i

/-- The formatting loop of `fmt.Sprintf` for formats whose only verb is
`%v`: text is copied, `%v` prints the next operand, and a `%v` with no
operand left prints `%!v(MISSING)`. -/
def doPrintf : List Char → List Arg → String
  | [], _ => ""
  | '%' :: 'v' :: rest, a :: args => a.format ++ doPrintf rest args
  | '%' :: 'v' :: rest, [] => "%!v(MISSING)" ++ doPrintf rest []
  | c :: rest, args => String.singleton c ++ doPrintf rest args

/-- The function `fmt.Sprintf`, for the formats described at `doPrintf`. -/
def Sprintf (format : String) (args : List Arg) : String :=
  doPrintf format.data args

/-! ## The host -/

/-- What the process takes from its host. -/
structure Host where
  /-- The function `os.Getenv`: the value of a variable, empty when unset. -/
  Getenv : String → String
  /-- The function `mime.ExtensionsByType` over the MIME registry of the
  host: the candidate extensions and the error (`none` for `nil`). -/
  ExtensionsByType : String → List String × Option String
  /-- The function `os.Open` followed by reading the file to its end:
  `none` when the file cannot be opened, otherwise what `io.Copy` reads
  from it. -/
  Open : String → Option String
  /-- The function `http.DetectContentType`. -/
  DetectContentType : String → String

/-- The package variable `isDeBugMode`: `os.Getenv("DEBUG") != ""`. It is
read once at start; the program does not change `DEBUG` afterwards
(`godotenv.Load` leaves a variable that is already set alone). -/
def isDeBugMode (host : Host) : Bool := host.Getenv "DEBUG" != ""

/-! ## The response writer of the `net/http` server -/

/-- The type `response` of `net/http/server.go`, the `http.ResponseWriter`
a handler is given, reduced to the fields the handler can change. -/
structure response where
  /-- The header map the handler gets from `Header()`. -/
  handlerHeader : Header
  /-- Whether `Header()` has been called. -/
  calledHeader : Bool
  /-- Whether a final status has been written (logically). -/
  wroteHeader : Bool
  /-- The final status. -/
  status : Int
  /-- The snapshot `cw.header` of the header map, taken when the status is
  written; `none` for `nil`. -/
  cwHeader : Option Header
  /-- The informational (1xx) statuses sent ahead of the final one. -/
  informational : List Int
  /-- The body bytes accepted by `Write`. -/
  written : String

/-- The response writer handed to a handler. -/
def response.fresh : response :=
  { handlerHeader := Header.empty, calledHeader := false, wroteHeader := false,
    status := 0, cwHeader := none, informational := [], written := "" }

/-- The function `bodyAllowedForStatus`: no body for 1xx, 204 and 304. -/
def bodyAllowedForStatus (status : Int) : Bool :=
  if status ≥ 100 ∧ status ≤ 199 then false
  else if status = 204 then false
  else if status = 304 then false
  else true

/-- The method `response.Header`: a call made after the status was written
first saves the header map as it was then, so that later changes do not
reach the response. (No call of the program comes after a `Write`, so the
chunk writer has not written the header yet.) -/
def response.Header (w : response) : response :=
  { w with
    cwHeader := if w.cwHeader.isNone && w.wroteHeader then some w.handlerHeader
                else w.cwHeader
    calledHeader := true }

/-- The method `response.WriteHeader`. A call after the final status was
written is ignored (and logged). `checkWriteHeaderCode` panics on a code
that does not have three digits; the panic is the error of the result. An
informational status other than 101 is sent at once and leaves the final
status open. Any other code becomes the final status, and the header map is
saved if the handler has asked for it. -/
def response.WriteHeader (w : response) (code : Int) : Except String response :=
  if w.wroteHeader then .ok w
  else if code < 100 ∨ code > 999 then
    .error (Sprintf "invalid WriteHeader code %v" [.int code])
  else if code ≥ 100 ∧ code ≤ 199 ∧ code ≠ 101 then
    .ok { w with informational := w.informational ++ [code] }
  else
    .ok { w with
          wroteHeader := true
          status := code
          cwHeader := if w.calledHeader && w.cwHeader.isNone then some w.handlerHeader
                      else w.cwHeader }

/-- The method `response.Write`: status 200 is written if none was, and the
data is appended to the body unless it is empty or the status allows no body
(`ErrBodyNotAllowed`, which the callers of the program ignore). -/
def response.Write (w : response) (data : String) : Except String response := do
  let w ← if w.wroteHeader then pure w else w.WriteHeader 200
  if data = "" then pure w
  else if !bodyAllowedForStatus w.status then pure w
  else pure { w with written := w.written ++ data }

/-- The function `http.Error`. -/
def Error (w : response) (error : String) (code : Int) : Except String response := do
  let w := w.Header
  let h := w.handlerHeader
  let h := h.Del "Content-Length"
  let h := h.Set "Content-Type" "text/plain; charset=utf-8"
  let h := h.Set "X-Content-Type-Options" "nosniff"
  let w := { w with handlerHeader := h }
  let w ← w.WriteHeader code
  w.Write (error ++ "\n")

/-- The function `http.NotFound`. -/
def NotFound (w : response) (_req : Request) : Except String response :=
  Error w "404 page not found" 404

/-- What reaches the client. -/
structure Response where
  /-- The status of the status line. -/
  status : Int
  /-- The header lines that come from the handler or from content
  sniffing. (`Date`, `Content-Length`, `Transfer-Encoding` and `Connection`,
  which the server adds, are left out.) -/
  header : Header
  /-- The body. -/
  body : String

/-- The function `suppressedHeaders` of `net/http/transfer.go`. -/
def suppressedHeaders (status : Int) : List String :=
  if status = 304 then ["Content-Type", "Content-Length", "Transfer-Encoding"]
  else if !bodyAllowedForStatus status then ["Content-Length", "Transfer-Encoding"]
  else []

/-- The header the chunk writer sends (`chunkWriter.writeHeader`): the
saved one, or the map of the handler if none was saved; with a status that
allows a body a missing `Content-Type` is sniffed from a non empty body, with
any other status the suppressed headers are dropped. -/
def response.writeHeader (host : Host) (w : response) : CustomErrorPages.Header :=
  let header := match w.cwHeader with
    | some h => h
    | none => w.handlerHeader
  if bodyAllowedForStatus w.status then
    if (header "Content-Type").isNone && header.Get "Content-Encoding" == ""
        && header.Get "Transfer-Encoding" == "" && w.written != "" then
      header.Set "Content-Type" (host.DetectContentType w.written)
    else header
  else (suppressedHeaders w.status).foldl Header.Del header

/-- The end of a request (`finishRequest`): status 200 if the handler wrote
none, then the header and the body are sent; a `HEAD` request is answered
without the body. -/
def response.finishRequest (host : Host) (req : Request) (w : response) :
    Except String Response := do
  let w ← if w.wroteHeader then pure w else w.WriteHeader 200
  pure { status := w.status, header := (w.writeHeader host),
         body := if req.Method = "HEAD" then "" else w.written }

/-! ## The functions of `main.go` -/

/-- The function `addHeadersToResInDebugMode`. -/
def addHeadersToResInDebugMode (host : Host) (res : response) (req : Request) : response :=
  if isDeBugMode host then
    let res := res.Header
    let res := { res with handlerHeader := res.handlerHeader.Set FormatHeader (req.Header.Get FormatHeader) }
    let res := res.Header
    let res := { res with handlerHeader := res.handlerHeader.Set CodeHeader (req.Header.Get CodeHeader) }
    let res := res.Header
    let res := { res with handlerHeader := res.handlerHeader.Set ContentType (req.Header.Get ContentType) }
    let res := res.Header
    let res := { res with handlerHeader := res.handlerHeader.Set OriginalURI (req.Header.Get OriginalURI) }
    let res := res.Header
    let res := { res with handlerHeader := res.handlerHeader.Set Namespace (req.Header.Get Namespace) }
    let res := res.Header
    let res := { res with handlerHeader := res.handlerHeader.Set IngressName (req.Header.Get IngressName) }
    let res := res.Header
    let res := { res with handlerHeader := res.handlerHeader.Set ServiceName (req.Header.Get ServiceName) }
    let res := res.Header
    let res := { res with handlerHeader := res.handlerHeader.Set ServicePort (req.Header.Get ServicePort) }
    let res := res.Header
    { res with handlerHeader := res.handlerHeader.Set RequestID (req.Header.Get RequestID) }
  else res

/-- The function `getFormat`. -/
def getFormat (req : Request) : String :=
  let format := req.Header.Get FormatHeader
  if format = "" then "text/html" else format

/-- The function `getExtension`. -/
def getExtension (host : Host) (format : String) : String :=
  let ext := "html"
  let (cext, err) := host.ExtensionsByType format
  let ext :=
    if err.isSome then ext
    else if cext.length = 0 then ext
    else if cext.length > 0 then cext.headD ext
    else ext
  if !HasPrefix ext "." then "." ++ ext else ext

/-- The function `getAbsoluteErrorPath`. -/
def getAbsoluteErrorPath (path : String) (code : Int) (ext : String) : String :=
  Sprintf "%v/%v%v" [.str path, .int code, .str ext]

/-- The function `getStatusCode`. -/
def getStatusCode (req : Request) : Int :=
  let errCode := req.Header.Get CodeHeader
  match Atoi errCode with
  | none => 404
  | some code => code

/-- The function `getBaseErrorFilePath`. -/
def getBaseErrorFilePath (host : Host) : String :=
  let path := host.Getenv ErrFilesPath
  if path = "" then "./errors" else path

/-- What a run of the handler leaves behind: the response writer and the
paths it passed to `os.Open`. -/
structure Handled where
  /-- The response writer after the handler. -/
  res : response
  /-- The arguments of the calls of `os.Open`, in order. -/
  opened : List String

/-- The function `errorHandler`. A panic of the response writer ends the
handler (the error of the result). `io.Copy(res, f)` hands the content of the
opened file to `Write`; the deferred `f.Close()` does not touch the
response. The paths passed to `os.Open` are recorded next to the response
writer. -/
def errorHandler (host : Host) (res : response) (req : Request) : Except String Handled := do
  let res := addHeadersToResInDebugMode host res req
  let format := getFormat req
  let ext := getExtension host format
  let code := getStatusCode req
  let file := getAbsoluteErrorPath (getBaseErrorFilePath host) code ext
  let res ← res.WriteHeader code
  match host.Open file with
  | none =>
    let res ← NotFound res req
    pure { res := res, opened := [file] }
  | some content =>
    let res ← res.Write content
    pure { res := res, opened := [file] }

/-- One request on the route `/`, as `conn.serve` runs it: the handler, then
the end of the request. A panic of the handler is recovered by the server,
which logs it and closes the connection: the client gets no response
(`none`). -/
def serve (host : Host) (req : Request) : Option Response :=
  match errorHandler host response.fresh req with
  | .error _ => none
  | .ok h =>
    match h.res.finishRequest host req with
    | .error _ => none
    | .ok r => some r

/-! ## A concrete host -/

/-- The table built into the Go `mime` package (`builtinTypesLower`) as it
stood with sixteen extensions, read from the media type to its extensions,
each list sorted as `mime.ExtensionsByType` sorts its result. Newer releases
and a system MIME file register more extensions. -/
def builtinTypes : List (String × List String) :=
  [("text/html", [".htm", ".html"]),
   ("text/css", [".css"]),
   ("text/javascript", [".js", ".mjs"]),
   ("text/xml", [".xml"]),
   ("application/json", [".json"]),
   ("application/pdf", [".pdf"]),
   ("application/wasm", [".wasm"]),
   ("image/avif", [".avif"]),
   ("image/gif", [".gif"]),
   ("image/jpeg", [".jpeg", ".jpg"]),
   ("image/png", [".png"]),
   ("image/svg+xml", [".svg"]),
   ("image/webp", [".webp"])]

/-- The lookup `mime.ExtensionsByType` over `builtinTypes`, which is the whole
registry on a host without a system MIME file. The media type is looked up
as it is written: the parsing of `mime.ParseMediaType` (case folding,
parameters, malformed types) is not embedded, so only media types written in
lower case and without parameters are covered, which is how it is used
below; the empty string is a parse error, and a type that is not in the
table has no extension. -/
def builtinExtensionsByType (typ : String) : List String × Option String :=
  if typ = "" then ([], some "mime: no media type")
  else ((builtinTypes.lookup typ).getD [], none)

/-- A header map given by a list of canonical keys with one value each. -/
def Header.ofList (l : List (String × String)) : Header :=
  fun k => (l.lookup k).map fun v => [v]

/-- A host with the given environment and files, the built-in MIME table,
and a content sniffer that reports plain text (which is what
`http.DetectContentType` reports for the texts used below). -/
def exampleHost (env files : List (String × String)) : Host :=
  { Getenv := fun k => (env.lookup k).getD ""
    ExtensionsByType := builtinExtensionsByType
    Open := fun p => files.lookup p
    DetectContentType := fun _ => "text/plain; charset=utf-8" }

/-! ## Words of the specification -/

/-- A base-10 integer literal: an optional sign followed by one or more
decimal digits. -/
def isIntegerLiteral (s : String) : Bool :=
  match s.data with
  | [] => false
  | c :: cs =>
    if c = '+' ∨ c = '-' then !cs.isEmpty && cs.all Char.isDigit
    else (c :: cs).all Char.isDigit

/-- The nine allow-listed headers. -/
def allowList : List String :=
  [FormatHeader, CodeHeader, ContentType, OriginalURI, Namespace, IngressName,
   ServiceName, ServicePort, RequestID]

/-- A string that begins with a dot. -/
def beginsWithDot (s : String) : Prop := ∃ rest : String, s = "." ++ rest

/-- An extension with a dot put in front if it does not begin with one. -/
def dotted (e : String) : String :=
  if e.data.head? = some '.' then e else "." ++ e

/-- An optional `-` followed by one or more decimal digits. -/
def isSignedDigits (s : String) : Bool :=
  match s.data with
  | [] => false
  | c :: cs =>
    if c = '-' then !cs.isEmpty && cs.all Char.isDigit
    else (c :: cs).all Char.isDigit

/-- The file at `{base}/{code}{ext}`: base directory, resolved status code in
decimal, resolved extension. -/
def resolvedFile (host : Host) (req : Request) : String :=
  getBaseErrorFilePath host ++ "/" ++ toString (getStatusCode req) ++
    getExtension host (getFormat req)

/-- The text the handler hands to the response writer as the body: the
content of the resolved file, or the not-found text of `http.NotFound`. -/
def resolvedBody (host : Host) (req : Request) : String :=
  match host.Open (resolvedFile host req) with
  | some c => c
  | none => "404 page not found\n"

/-- The paths a run of the handler passes to `os.Open`; none if the handler
panics before. -/
def openedPaths (host : Host) (req : Request) : List String :=
  match errorHandler host response.fresh req with
  | .ok h => h.opened
  | .error _ => []

/-- A request with the given method and header lines (canonical names). -/
def request (method : String) (headers : List (String × String)) : Request :=
  { Method := method, Header := Header.ofList headers }

/-- A request with the given method and `X-Code` that asks for
`application/json`. -/
def jsonRequest (method code : String) : Request :=
  request method [("X-Code", code), ("X-Format", "application/json")]

/-- The host of the example of the specification: `ERROR_FILES_PATH` is
`/tmp/custom` and holds the given files. -/
def customHost (files : List (String × String)) : Host :=
  exampleHost [("ERROR_FILES_PATH", "/tmp/custom")] files

/-- What a client tells apart in the claims on status and body. -/
def statusAndBody (r : Option Response) : Option (Int × String) :=
  r.map fun r => (r.status, r.body)

/-- The values of a header on what the client gets: `none` when there is no
response or when the response does not carry the header. -/
def headerOf (r : Option Response) (key : String) : Option (List String) :=
  r.bind fun r => r.header (CanonicalMIMEHeaderKey key)

/-- An informational status that `WriteHeader` sends ahead of the final one:
a 1xx code other than 101. -/
def isInformational (code : Int) : Bool :=
  decide (100 ≤ code) && decide (code ≤ 199) && decide (code ≠ 101)

/-- A host in debug mode (`DEBUG=1`) with the given files under `./errors`. -/
def debugHost (files : List (String × String)) : Host :=
  exampleHost [("DEBUG", "1")] files

/-! ## Facts about the library routines -/

theorem digit_char (d : Nat) (h : d < 10) :
    ('0' ≤ Char.ofNat ('0'.toNat + d) ∧ Char.ofNat ('0'.toNat + d) ≤ '9') ∧
      (Char.ofNat ('0'.toNat + d)).toNat - '0'.toNat = d ∧
      (Char.ofNat ('0'.toNat + d)).isDigit = true ∧
      Char.ofNat ('0'.toNat + d) = Nat.digitChar d := by
  interval_cases d <;> decide

theorem formatBits_append (fuel u : Nat) (acc : List Char) :
    formatBits fuel u acc = formatBits fuel u [] ++ acc := by
  induction fuel generalizing u acc with
  | zero => simp [formatBits]
  | succ fuel ih =>
    simp only [formatBits]
    split
    · rw [ih, ih (u / 10) [_]]; simp
    · simp

theorem formatBits_toDigitsCore (fuel u : Nat) (acc : List Char) :
    formatBits fuel u acc = Nat.toDigitsCore 10 fuel u acc := by
  induction fuel generalizing u acc with
  | zero => simp [formatBits, Nat.toDigitsCore]
  | succ fuel ih =>
    simp only [formatBits, Nat.toDigitsCore]
    by_cases h : u ≥ 10
    · have h0 : u / 10 ≠ 0 := by omega
      rw [if_pos h, if_neg h0, ih, (digit_char (u % 10) (by omega)).2.2.2]
    · have h0 : u / 10 = 0 := by omega
      have h1 : u % 10 = u := by omega
      rw [if_neg h, if_pos h0, h1, (digit_char u (by omega)).2.2.2]

theorem formatBits_digits (fuel u : Nat) :
    ∀ c ∈ formatBits fuel u [], c.isDigit = true := by
  induction fuel generalizing u with
  | zero => simp [formatBits]
  | succ fuel ih =>
    intro c hc
    simp only [formatBits] at hc
    split at hc
    · rw [formatBits_append] at hc
      rcases List.mem_append.mp hc with h | h
      · exact ih _ c h
      · simp only [List.mem_singleton] at h
        rw [h]; exact (digit_char (u % 10) (by omega)).2.2.1
    · simp only [List.mem_singleton] at hc
      rw [hc]; exact (digit_char u (by omega)).2.2.1

theorem formatBits_ne_nil (fuel u : Nat) : formatBits (fuel + 1) u [] ≠ [] := by
  simp only [formatBits]
  split
  · rw [formatBits_append]; simp
  · simp

theorem parseDecimal_append (l1 l2 : List Char) (n : Nat) :
    parseDecimal (l1 ++ l2) n = (parseDecimal l1 n).bind (parseDecimal l2) := by
  induction l1 generalizing n with
  | nil => simp [parseDecimal]
  | cons c cs ih =>
    simp only [List.cons_append, parseDecimal]
    split
    · exact ih _
    · simp

theorem parseDecimal_formatBits (fuel u : Nat) (h : u < fuel) :
    parseDecimal (formatBits fuel u []) 0 = some u := by
  induction fuel generalizing u with
  | zero => omega
  | succ fuel ih =>
    simp only [formatBits]
    by_cases h10 : u ≥ 10
    · rw [if_pos h10, formatBits_append, parseDecimal_append, ih (u / 10) (by omega)]
      have hd := digit_char (u % 10) (by omega)
      simp only [Option.some_bind, parseDecimal, if_pos hd.1, hd.2.1]
      congr 1; omega
    · rw [if_neg h10]
      have hd := digit_char u (by omega)
      simp only [parseDecimal, if_pos hd.1, hd.2.1]
      congr 1; omega

theorem isDigit_iff (c : Char) : c.isDigit = true ↔ ('0' ≤ c ∧ c ≤ '9') := by
  simp only [Char.isDigit, Bool.and_eq_true, decide_eq_true_eq, Char.le_def]
  constructor <;> intro h <;> exact h

theorem parseDecimal_some_digits (l : List Char) (n m : Nat)
    (h : parseDecimal l n = some m) : l.all Char.isDigit = true := by
  induction l generalizing n with
  | nil => rfl
  | cons c cs ih =>
    simp only [parseDecimal] at h
    split at h
    · next hc =>
      simp only [List.all_cons, Bool.and_eq_true]
      exact ⟨(isDigit_iff c).mpr hc, ih _ h⟩
    · exact absurd h (by simp)

theorem FormatInt_eq_toString (i : Int) : FormatInt i = toString i := by
  cases i with
  | ofNat m =>
    have h : ¬ (Int.ofNat m < 0) := by simp
    simp only [FormatInt, if_neg h, Int.natAbs_ofNat, formatBits_toDigitsCore]
    rfl
  | negSucc m =>
    have h : Int.negSucc m < 0 := Int.negSucc_lt_zero m
    simp only [FormatInt, if_pos h, formatBits_toDigitsCore]
    rfl

theorem Atoi_FormatInt (n : Int) (hlo : -2 ^ 63 ≤ n) (hhi : n < 2 ^ 63) :
    Atoi (FormatInt n) = some n := by
  have hall := formatBits_digits (n.natAbs + 1) n.natAbs
  have hne := formatBits_ne_nil n.natAbs n.natAbs
  have hparse := parseDecimal_formatBits (n.natAbs + 1) n.natAbs (by omega)
  by_cases hneg : n < 0
  · simp only [FormatInt, if_pos hneg, Atoi]
    have hd : (formatBits (n.natAbs + 1) n.natAbs []).isEmpty = false := by
      cases hl : formatBits (n.natAbs + 1) n.natAbs [] with
      | nil => exact absurd hl hne
      | cons a l => rfl
    simp only [beq_self_eq_true, Bool.or_true, if_true, hd, hparse, Bool.not_true,
      Bool.false_and, Bool.true_and, decide_eq_true_eq]
    have h1 : ¬ (n.natAbs > 2 ^ 63) := by omega
    simp only [Bool.false_eq_true, if_false, h1]
    congr 1; omega
  · simp only [FormatInt, if_neg hneg, Atoi]
    cases hl : formatBits (n.natAbs + 1) n.natAbs [] with
    | nil => exact absurd hl hne
    | cons a l =>
      have ha : a.isDigit = true := hall a (by rw [hl]; simp)
      have hplus : (a == '+') = false := by
        rcases (isDigit_iff a).mp ha with ⟨h1, _⟩
        cases hq : a == '+' with
        | false => rfl
        | true =>
          rw [beq_iff_eq] at hq
          rw [hq] at h1; exact absurd h1 (by decide)
      have hminus : (a == '-') = false := by
        rcases (isDigit_iff a).mp ha with ⟨h1, _⟩
        cases hq : a == '-' with
        | false => rfl
        | true =>
          rw [beq_iff_eq] at hq
          rw [hq] at h1; exact absurd h1 (by decide)
      rw [hl] at hparse
      simp only [hplus, hminus, Bool.or_self, Bool.false_eq_true, if_false, List.isEmpty_cons,
        hparse, Bool.not_false, Bool.true_and, Bool.false_and, decide_eq_true_eq]
      have h1 : ¬ (n.natAbs ≥ 2 ^ 63) := by omega
      simp only [h1, if_false]
      congr 1; omega

theorem Atoi_some_literal (s : String) (v : Int) (h : Atoi s = some v) :
    isIntegerLiteral s = true := by
  unfold Atoi at h
  unfold isIntegerLiteral
  cases hs : s.data with
  | nil => rw [hs] at h; exact absurd h (by simp)
  | cons c cs =>
    rw [hs] at h
    simp only at h
    by_cases hsign : c = '+' ∨ c = '-'
    · have hb : (c == '+' || c == '-') = true := by
        rcases hsign with h1 | h1 <;> simp [h1]
      simp only [hb, if_true] at h
      simp only [if_pos hsign]
      cases hcs : cs.isEmpty with
      | true => rw [hcs] at h; exact absurd h (by simp)
      | false =>
        rw [hcs] at h
        simp only [Bool.false_eq_true, if_false] at h
        cases hp : parseDecimal cs 0 with
        | none => rw [hp] at h; exact absurd h (by simp)
        | some un => simp [parseDecimal_some_digits cs 0 un hp]
    · have hb : (c == '+' || c == '-') = false := by
        simp only [not_or] at hsign
        simp [hsign.1, hsign.2]
      simp only [hb, Bool.false_eq_true, if_false, List.isEmpty_cons] at h
      simp only [if_neg hsign]
      cases hp : parseDecimal (c :: cs) 0 with
      | none => rw [hp] at h; exact absurd h (by simp)
      | some un => exact parseDecimal_some_digits (c :: cs) 0 un hp

theorem Atoi_empty : Atoi "" = none := by decide

@[simp] theorem canon_FormatHeader : CanonicalMIMEHeaderKey FormatHeader = "X-Format" := by decide
@[simp] theorem canon_CodeHeader : CanonicalMIMEHeaderKey CodeHeader = "X-Code" := by decide
@[simp] theorem canon_ContentType : CanonicalMIMEHeaderKey ContentType = "Content-Type" := by decide
@[simp] theorem canon_OriginalURI : CanonicalMIMEHeaderKey OriginalURI = "X-Original-Uri" := by decide
@[simp] theorem canon_Namespace : CanonicalMIMEHeaderKey Namespace = "X-Namespace" := by decide
@[simp] theorem canon_IngressName : CanonicalMIMEHeaderKey IngressName = "X-Ingress-Name" := by decide
@[simp] theorem canon_ServiceName : CanonicalMIMEHeaderKey ServiceName = "X-Service-Name" := by decide
@[simp] theorem canon_ServicePort : CanonicalMIMEHeaderKey ServicePort = "X-Service-Port" := by decide
@[simp] theorem canon_RequestID : CanonicalMIMEHeaderKey RequestID = "X-Request-Id" := by decide
@[simp] theorem canon_lit_ContentType : CanonicalMIMEHeaderKey "Content-Type" = "Content-Type" := by decide
@[simp] theorem canon_lit_ContentLength : CanonicalMIMEHeaderKey "Content-Length" = "Content-Length" := by decide
@[simp] theorem canon_lit_ContentEncoding : CanonicalMIMEHeaderKey "Content-Encoding" = "Content-Encoding" := by decide
@[simp] theorem canon_lit_TransferEncoding : CanonicalMIMEHeaderKey "Transfer-Encoding" = "Transfer-Encoding" := by decide
@[simp] theorem canon_lit_Nosniff : CanonicalMIMEHeaderKey "X-Content-Type-Options" = "X-Content-Type-Options" := by decide

theorem HasPrefix_dot (e : String) : HasPrefix e "." = true ↔ e.data.head? = some '.' := by
  unfold HasPrefix
  cases h : e.data with
  | nil => simp
  | cons c cs =>
    have h1 : ("." : String).data = ['.'] := rfl
    simp [h1]

theorem FormatInt_chars (i : Int) :
    ∀ c ∈ (FormatInt i).data, c = '-' ∨ c.isDigit = true := by
  intro c hc
  unfold FormatInt at hc
  split at hc
  · simp only [List.mem_cons] at hc
    rcases hc with h | h
    · exact Or.inl h
    · exact Or.inr (formatBits_digits _ _ c h)
  · exact Or.inr (formatBits_digits _ _ c hc)

theorem FormatInt_signedDigits (i : Int) : isSignedDigits (FormatInt i) = true := by
  have hall := formatBits_digits (i.natAbs + 1) i.natAbs
  have hne := formatBits_ne_nil i.natAbs i.natAbs
  unfold isSignedDigits FormatInt
  by_cases hneg : i < 0
  · simp only [if_pos hneg, if_true]
    cases hl : formatBits (i.natAbs + 1) i.natAbs [] with
    | nil => exact absurd hl hne
    | cons a l =>
      rw [hl] at hall
      simp only [List.isEmpty_cons, Bool.not_false, Bool.true_and, List.all_eq_true]
      exact hall
  · simp only [if_neg hneg]
    cases hl : formatBits (i.natAbs + 1) i.natAbs [] with
    | nil => exact absurd hl hne
    | cons a l =>
      rw [hl] at hall
      have ha : a.isDigit = true := hall a (by simp)
      have hminus : a ≠ '-' := by
        intro hq
        rw [hq] at ha
        exact absurd ha (by decide)
      simp only [if_neg hminus, List.all_eq_true]
      exact hall

theorem FormatInt_head (i : Int) : (FormatInt i).data.head? ≠ some '.' := by
  have hne := formatBits_ne_nil i.natAbs i.natAbs
  have hall := formatBits_digits (i.natAbs + 1) i.natAbs
  unfold FormatInt
  split
  · simp
  · cases hl : formatBits (i.natAbs + 1) i.natAbs [] with
    | nil => exact absurd hl hne
    | cons a l =>
      rw [hl] at hall
      have ha : a.isDigit = true := hall a (by simp)
      simp only [List.head?_cons, ne_eq, Option.some.injEq]
      intro hq
      rw [hq] at ha
      exact absurd ha (by decide)

theorem lookup_getD_all (t : List (String × List String)) (k : String)
    (P : List String → Prop) (hnil : P []) (ht : ∀ p ∈ t, P p.2) :
    P ((t.lookup k).getD []) := by
  induction t with
  | nil => exact hnil
  | cons p t ih =>
    rcases p with ⟨a, v⟩
    simp only [List.lookup]
    cases hk : k == a with
    | true => exact ht (a, v) (by simp)
    | false => exact ih (fun q hq => ht q (by simp [hq]))

theorem builtin_no_slash :
    ∀ format, ∀ e ∈ (builtinExtensionsByType format).1, '/' ∉ e.data := by
  intro format
  unfold builtinExtensionsByType
  split
  · simp
  · exact lookup_getD_all builtinTypes format (fun l => ∀ e ∈ l, '/' ∉ e.data) (by simp)
      (by decide)

/-! ## Facts about the functions of `main.go` and the response writer -/

theorem getAbsoluteErrorPath_eq (path : String) (code : Int) (ext : String) :
    getAbsoluteErrorPath path code ext = path ++ "/" ++ toString code ++ ext := by
  simp only [getAbsoluteErrorPath, Sprintf, doPrintf, Arg.format, FormatInt_eq_toString]
  simp only [String.append_assoc, String.append_empty]
  rfl

theorem start_fields (host : Host) (req : Request) :
    (addHeadersToResInDebugMode host response.fresh req).wroteHeader = false ∧
    (addHeadersToResInDebugMode host response.fresh req).cwHeader = none ∧
    (addHeadersToResInDebugMode host response.fresh req).written = "" ∧
    (addHeadersToResInDebugMode host response.fresh req).informational = [] ∧
    (addHeadersToResInDebugMode host response.fresh req).calledHeader = isDeBugMode host := by
  unfold addHeadersToResInDebugMode
  cases h : isDeBugMode host <;> simp [response.fresh, response.Header]

theorem bodyAllowed_of (code : Int) (h200 : 200 ≤ code) (h204 : code ≠ 204) (h304 : code ≠ 304) :
    bodyAllowedForStatus code = true := by
  unfold bodyAllowedForStatus
  have h1 : ¬ (code ≥ 100 ∧ code ≤ 199) := by omega
  simp [h1, h204, h304]

theorem WriteHeader_final (w : response) (code : Int) (hw : w.wroteHeader = false)
    (h200 : 200 ≤ code ∨ code = 101) (h999 : code ≤ 999) :
    w.WriteHeader code = .ok { w with
      wroteHeader := true
      status := code
      cwHeader := if w.calledHeader && w.cwHeader.isNone then some w.handlerHeader
                  else w.cwHeader } := by
  unfold response.WriteHeader
  have h1 : ¬ (code < 100 ∨ code > 999) := by omega
  have h2 : ¬ (code ≥ 100 ∧ code ≤ 199 ∧ code ≠ 101) := by omega
  simp [hw, h1, h2]

theorem errorHandler_final (host : Host) (req : Request)
    (h200 : 200 ≤ getStatusCode req ∨ getStatusCode req = 101) (h999 : getStatusCode req ≤ 999) :
    ∃ w, errorHandler host response.fresh req =
        .ok { res := w, opened := [getAbsoluteErrorPath (getBaseErrorFilePath host)
          (getStatusCode req) (getExtension host (getFormat req))] } ∧
      w.wroteHeader = true ∧ w.status = getStatusCode req ∧
      (match w.cwHeader with
        | some h => h
        | none => w.handlerHeader) =
        (addHeadersToResInDebugMode host response.fresh req).handlerHeader ∧
      w.written =
        if bodyAllowedForStatus (getStatusCode req) then
          match host.Open (getAbsoluteErrorPath (getBaseErrorFilePath host)
            (getStatusCode req) (getExtension host (getFormat req))) with
          | some c => c
          | none => "404 page not found\n"
        else "" := by
  obtain ⟨f1, f2, f3, f4, f5⟩ := start_fields host req
  unfold errorHandler
  simp only [bind, Except.bind, WriteHeader_final _ _ f1 h200 h999, pure, Except.pure]
  cases hopen : host.Open (getAbsoluteErrorPath (getBaseErrorFilePath host)
      (getStatusCode req) (getExtension host (getFormat req))) with
  | none =>
    simp only [NotFound, Error, response.Header, response.WriteHeader, response.Write, bind,
      Except.bind, pure, Except.pure, f2, f3, f5]
    cases hd : isDeBugMode host <;> cases hb : bodyAllowedForStatus (getStatusCode req) <;>
      simp [hb]
  | some c =>
    simp only [response.Write, bind, Except.bind, pure, Except.pure, f2, f3, f5]
    cases hd : isDeBugMode host <;> cases hb : bodyAllowedForStatus (getStatusCode req) <;>
      by_cases hc : c = "" <;> simp [hc, hb]

theorem errorHandler_panics (host : Host) (req : Request)
    (h : getStatusCode req < 100 ∨ getStatusCode req > 999) :
    ∃ msg, errorHandler host response.fresh req = .error msg := by
  obtain ⟨f1, _, _, _, _⟩ := start_fields host req
  unfold errorHandler
  simp [bind, Except.bind, response.WriteHeader, f1, h]

theorem WriteHeader_informational (w : response) (code : Int) (hw : w.wroteHeader = false)
    (h100 : 100 ≤ code) (h199 : code ≤ 199) (h101 : code ≠ 101) :
    w.WriteHeader code = .ok { w with informational := w.informational ++ [code] } := by
  unfold response.WriteHeader
  have h1 : ¬ (code < 100 ∨ code > 999) := by omega
  have h2 : code ≥ 100 ∧ code ≤ 199 ∧ code ≠ 101 := ⟨h100, h199, h101⟩
  rw [if_neg (by simp [hw]), if_neg h1, if_pos h2]

theorem errorHandler_informational (host : Host) (req : Request)
    (h100 : 100 ≤ getStatusCode req) (h199 : getStatusCode req ≤ 199)
    (h101 : getStatusCode req ≠ 101) :
    ∃ w, errorHandler host response.fresh req =
        .ok { res := w, opened := [getAbsoluteErrorPath (getBaseErrorFilePath host)
          (getStatusCode req) (getExtension host (getFormat req))] } ∧
      w.wroteHeader = true ∧ (w.status = 200 ∨ w.status = 404) ∧
      ((match w.cwHeader with
        | some h => h
        | none => w.handlerHeader) =
        (addHeadersToResInDebugMode host response.fresh req).handlerHeader ∨
       (match w.cwHeader with
        | some h => h
        | none => w.handlerHeader) =
        (((addHeadersToResInDebugMode host response.fresh req).handlerHeader.Del
          "Content-Length").Set "Content-Type" "text/plain; charset=utf-8").Set
          "X-Content-Type-Options" "nosniff") := by
  obtain ⟨f1, f2, f3, f4, f5⟩ := start_fields host req
  unfold errorHandler
  simp only [bind, Except.bind, WriteHeader_informational _ _ f1 h100 h199 h101, pure,
    Except.pure]
  cases hopen : host.Open (getAbsoluteErrorPath (getBaseErrorFilePath host)
      (getStatusCode req) (getExtension host (getFormat req))) with
  | none =>
    simp only [NotFound, Error, response.Header, response.WriteHeader, response.Write, bind,
      Except.bind, pure, Except.pure, f1, f2, f3, f5]
    cases hd : isDeBugMode host <;> simp [bodyAllowedForStatus]
  | some c =>
    simp only [response.WriteHeader, response.Write, bind, Except.bind, pure, Except.pure,
      f1, f2, f3, f5]
    cases hd : isDeBugMode host <;> by_cases hc : c = "" <;> simp [hc, bodyAllowedForStatus]

theorem finishRequest_wrote (host : Host) (req : Request) (w : response)
    (hw : w.wroteHeader = true) :
    w.finishRequest host req =
      .ok { status := w.status
            header := w.writeHeader host
            body := if req.Method = "HEAD" then "" else w.written } := by
  simp [response.finishRequest, hw, bind, Except.bind, pure, Except.pure]

theorem serve_none (host : Host) (req : Request)
    (h : getStatusCode req < 100 ∨ getStatusCode req > 999) : serve host req = none := by
  obtain ⟨msg, hmsg⟩ := errorHandler_panics host req h
  simp [serve, hmsg]

theorem serve_final (host : Host) (req : Request)
    (h200 : 200 ≤ getStatusCode req ∨ getStatusCode req = 101) (h999 : getStatusCode req ≤ 999) :
    ∃ w : response, serve host req =
        some { status := getStatusCode req
               header := w.writeHeader host
               body := if req.Method = "HEAD" then "" else w.written } ∧
      w.status = getStatusCode req ∧
      (match w.cwHeader with
        | some h => h
        | none => w.handlerHeader) =
        (addHeadersToResInDebugMode host response.fresh req).handlerHeader ∧
      w.written =
        if bodyAllowedForStatus (getStatusCode req) then
          match host.Open (getAbsoluteErrorPath (getBaseErrorFilePath host)
            (getStatusCode req) (getExtension host (getFormat req))) with
          | some c => c
          | none => "404 page not found\n"
        else "" := by
  obtain ⟨w, hw, h1, h2, h3, h4⟩ := errorHandler_final host req h200 h999
  refine ⟨w, ?_, h2, h3, h4⟩
  simp [serve, hw, finishRequest_wrote host req w h1, h2]

theorem getExtension_eq (host : Host) (format : String) :
    getExtension host format =
      match host.ExtensionsByType format with
      | (e :: _, none) => dotted e
      | _ => ".html" := by
  unfold getExtension dotted
  rcases hl : host.ExtensionsByType format with ⟨cext, err⟩
  have hhtml : HasPrefix "html" "." = false := by decide
  cases err with
  | some msg => simp [hhtml]
  | none =>
    cases cext with
    | nil => simp [hhtml]
    | cons e rest =>
      by_cases he : e.data.head? = some '.'
      · simp [(HasPrefix_dot e).mpr he, he]
      · have : HasPrefix e "." = false := by
          cases hq : HasPrefix e "." with
          | false => rfl
          | true => exact absurd ((HasPrefix_dot e).mp hq) he
        simp [this, he]

theorem dotted_beginsWithDot (e : String) : beginsWithDot (dotted e) := by
  unfold dotted beginsWithDot
  by_cases he : e.data.head? = some '.'
  · rw [if_pos he]
    rcases e with ⟨l⟩
    cases l with
    | nil => simp at he
    | cons c cs =>
      simp only [List.head?_cons, Option.some.injEq] at he
      exact ⟨String.mk cs, by rw [he]; rfl⟩
  · rw [if_neg he]
    exact ⟨e, rfl⟩

theorem getAbsoluteErrorPath_resolved (host : Host) (req : Request) :
    getAbsoluteErrorPath (getBaseErrorFilePath host) (getStatusCode req)
      (getExtension host (getFormat req)) = resolvedFile host req :=
  getAbsoluteErrorPath_eq _ _ _

theorem serve_body (host : Host) (req : Request)
    (h200 : 200 ≤ getStatusCode req) (h999 : getStatusCode req ≤ 999) :
    ∃ r, serve host req = some r ∧ r.status = getStatusCode req ∧
      r.body = if req.Method = "HEAD" ∨ getStatusCode req = 204 ∨ getStatusCode req = 304
        then "" else resolvedBody host req := by
  obtain ⟨w, hs, _, _, hw⟩ := serve_final host req (Or.inl h200) h999
  refine ⟨_, hs, rfl, ?_⟩
  simp only [hw, getAbsoluteErrorPath_resolved]
  by_cases hm : req.Method = "HEAD"
  · simp [hm]
  · by_cases h204 : getStatusCode req = 204
    · simp [hm, h204, bodyAllowedForStatus]
    · by_cases h304 : getStatusCode req = 304
      · simp [hm, h304, bodyAllowedForStatus]
      · simp [hm, h204, h304, bodyAllowed_of _ h200 h204 h304, resolvedBody]

theorem openedPaths_eq (host : Host) (req : Request) :
    openedPaths host req =
      if 100 ≤ getStatusCode req ∧ getStatusCode req ≤ 999 then [resolvedFile host req]
      else [] := by
  unfold openedPaths
  by_cases hr : 100 ≤ getStatusCode req ∧ getStatusCode req ≤ 999
  · rw [if_pos hr]
    by_cases hfin : 200 ≤ getStatusCode req ∨ getStatusCode req = 101
    · obtain ⟨w, hw, _⟩ := errorHandler_final host req hfin hr.2
      simp only [hw, getAbsoluteErrorPath_resolved]
    · obtain ⟨w, hw, _⟩ := errorHandler_informational host req hr.1 (by omega) (by omega)
      simp only [hw, getAbsoluteErrorPath_resolved]
  · rw [if_neg hr]
    obtain ⟨msg, hmsg⟩ := errorHandler_panics host req (by omega)
    simp only [hmsg]

theorem dotted_no_slash (e : String) (h : '/' ∉ e.data) : '/' ∉ (dotted e).data := by
  unfold dotted
  split
  · exact h
  · simp only [String.data_append, List.mem_append, not_or]
    exact ⟨by decide, h⟩

theorem start_header_nondebug (host : Host) (req : Request) (hd : isDeBugMode host = false) :
    (addHeadersToResInDebugMode host response.fresh req).handlerHeader = Header.empty := by
  simp [addHeadersToResInDebugMode, hd, response.fresh]

theorem start_header_debug (host : Host) (req : Request) (hd : isDeBugMode host = true) :
    ∀ k ∈ allowList,
      (addHeadersToResInDebugMode host response.fresh req).handlerHeader
        (CanonicalMIMEHeaderKey k) = some [req.Header.Get k] := by
  intro k hk
  simp only [allowList, List.mem_cons, List.mem_singleton, List.not_mem_nil, or_false] at hk
  rcases hk with h | h | h | h | h | h | h | h | h <;> subst h <;>
    simp [addHeadersToResInDebugMode, hd, response.Header, Header.Set]

theorem serve_informational_found (host : Host) (req : Request) (c : String)
    (h100 : 100 ≤ getStatusCode req) (h199 : getStatusCode req ≤ 199)
    (h101 : getStatusCode req ≠ 101)
    (hopen : host.Open (resolvedFile host req) = some c) :
    ∃ w : response, serve host req =
        some { status := 200
               header := w.writeHeader host
               body := if req.Method = "HEAD" then "" else c } ∧
      w.status = 200 ∧ w.written = c ∧
      (match w.cwHeader with
        | some h => h
        | none => w.handlerHeader) =
        (addHeadersToResInDebugMode host response.fresh req).handlerHeader := by
  obtain ⟨f1, f2, f3, f4, f5⟩ := start_fields host req
  rw [← getAbsoluteErrorPath_resolved] at hopen
  have hrun : ∃ w : response, errorHandler host response.fresh req =
        .ok { res := w, opened := [getAbsoluteErrorPath (getBaseErrorFilePath host)
          (getStatusCode req) (getExtension host (getFormat req))] } ∧
      w.wroteHeader = true ∧ w.status = 200 ∧ w.written = c ∧
      (match w.cwHeader with
        | some h => h
        | none => w.handlerHeader) =
        (addHeadersToResInDebugMode host response.fresh req).handlerHeader := by
    unfold errorHandler
    simp only [bind, Except.bind, WriteHeader_informational _ _ f1 h100 h199 h101, pure,
      Except.pure, hopen]
    simp only [response.WriteHeader, response.Write, bind, Except.bind, pure, Except.pure,
      f1, f2, f3, f5]
    cases hd : isDeBugMode host <;> by_cases hc : c = "" <;> simp [hc, bodyAllowedForStatus]
  obtain ⟨w, hw, h1, h2, h3, h4⟩ := hrun
  refine ⟨w, ?_, h2, h3, h4⟩
  simp [serve, hw, finishRequest_wrote host req w h1, h2, h3]

theorem serve_informational_missing (host : Host) (req : Request)
    (h100 : 100 ≤ getStatusCode req) (h199 : getStatusCode req ≤ 199)
    (h101 : getStatusCode req ≠ 101)
    (hopen : host.Open (resolvedFile host req) = none) :
    ∃ w : response, serve host req =
        some { status := 404
               header := w.writeHeader host
               body := if req.Method = "HEAD" then "" else "404 page not found\n" } ∧
      w.status = 404 ∧ w.written = "404 page not found\n" ∧
      (match w.cwHeader with
        | some h => h
        | none => w.handlerHeader) =
        (((addHeadersToResInDebugMode host response.fresh req).handlerHeader.Del
          "Content-Length").Set "Content-Type" "text/plain; charset=utf-8").Set
          "X-Content-Type-Options" "nosniff" := by
  obtain ⟨f1, f2, f3, f4, f5⟩ := start_fields host req
  rw [← getAbsoluteErrorPath_resolved] at hopen
  have hrun : ∃ w : response, errorHandler host response.fresh req =
        .ok { res := w, opened := [getAbsoluteErrorPath (getBaseErrorFilePath host)
          (getStatusCode req) (getExtension host (getFormat req))] } ∧
      w.wroteHeader = true ∧ w.status = 404 ∧ w.written = "404 page not found\n" ∧
      (match w.cwHeader with
        | some h => h
        | none => w.handlerHeader) =
        (((addHeadersToResInDebugMode host response.fresh req).handlerHeader.Del
          "Content-Length").Set "Content-Type" "text/plain; charset=utf-8").Set
          "X-Content-Type-Options" "nosniff" := by
    unfold errorHandler
    simp only [bind, Except.bind, WriteHeader_informational _ _ f1 h100 h199 h101, pure,
      Except.pure, hopen]
    simp only [NotFound, Error, response.Header, response.WriteHeader, response.Write, bind,
      Except.bind, pure, Except.pure, f1, f2, f3, f5]
    cases hd : isDeBugMode host <;> simp [bodyAllowedForStatus]
  obtain ⟨w, hw, h1, h2, h3, h4⟩ := hrun
  refine ⟨w, ?_, h2, h3, h4⟩
  simp [serve, hw, finishRequest_wrote host req w h1, h2, h3]

theorem headerOf_final (host : Host) (req : Request) (k : String)
    (hfin : 200 ≤ getStatusCode req ∨ getStatusCode req = 101) (h999 : getStatusCode req ≤ 999)
    (H : Header) (hH : (addHeadersToResInDebugMode host response.fresh req).handlerHeader = H) :
    headerOf (serve host req) k =
      (if bodyAllowedForStatus (getStatusCode req) then
        if (H "Content-Type").isNone && H.Get "Content-Encoding" == ""
            && H.Get "Transfer-Encoding" == "" && resolvedBody host req != "" then
          H.Set "Content-Type" (host.DetectContentType (resolvedBody host req))
        else H
      else (suppressedHeaders (getStatusCode req)).foldl Header.Del H)
        (CanonicalMIMEHeaderKey k) := by
  obtain ⟨w, hs, hst, heff, hwr⟩ := serve_final host req hfin h999
  simp only [headerOf, hs, Option.some_bind, response.writeHeader, heff, hst, hH, hwr,
    getAbsoluteErrorPath_resolved]
  cases hb : bodyAllowedForStatus (getStatusCode req) with
  | false => rfl
  | true => rfl

theorem allowList_cases (k : String) (hk : k ∈ allowList) :
    k = ContentType ∨
      (k ≠ ContentType ∧ CanonicalMIMEHeaderKey k ≠ "Content-Type" ∧
        CanonicalMIMEHeaderKey k ≠ "Content-Length" ∧
        CanonicalMIMEHeaderKey k ≠ "Transfer-Encoding" ∧
        CanonicalMIMEHeaderKey k ≠ "X-Content-Type-Options") := by
  simp only [allowList, List.mem_cons, List.mem_singleton, List.not_mem_nil, or_false] at hk
  rcases hk with h | h | h | h | h | h | h | h | h <;> subst h <;>
    first
      | exact Or.inl rfl
      | exact Or.inr (by decide)

theorem isInformational_iff (code : Int) :
    isInformational code = true ↔ (100 ≤ code ∧ code ≤ 199 ∧ code ≠ 101) := by
  simp [isInformational, and_assoc]

theorem headerOf_debug (host : Host) (req : Request) (hd : isDeBugMode host = true)
    (h100 : 100 ≤ getStatusCode req) (h999 : getStatusCode req ≤ 999) :
    ∀ k ∈ allowList, headerOf (serve host req) k =
      if k = ContentType ∧ getStatusCode req = 304 then none
      else if k = ContentType ∧ isInformational (getStatusCode req) = true ∧
          host.Open (resolvedFile host req) = none then
        some ["text/plain; charset=utf-8"]
      else some [req.Header.Get k] := by
  intro k hk
  have hval := start_header_debug host req hd k hk
  have hct := start_header_debug host req hd ContentType (by simp [allowList])
  rw [canon_ContentType] at hct
  by_cases hinf : isInformational (getStatusCode req) = true
  · obtain ⟨i100, i199, i101⟩ := (isInformational_iff _).mp hinf
    have h304 : getStatusCode req ≠ 304 := by omega
    rw [if_neg (by simp [h304])]
    cases hopen : host.Open (resolvedFile host req) with
    | none =>
      obtain ⟨w, hs, hst, _, heff⟩ :=
        serve_informational_missing host req i100 i199 i101 hopen
      have hb : bodyAllowedForStatus w.status = true := by
        simp [hst, bodyAllowedForStatus]
      simp only [headerOf, hs, Option.some_bind, response.writeHeader, heff, hb, if_true]
      generalize (addHeadersToResInDebugMode host response.fresh req).handlerHeader = H
        at hval hct
      have hhave : ((((H.Del "Content-Length").Set "Content-Type"
          "text/plain; charset=utf-8").Set "X-Content-Type-Options" "nosniff")
          "Content-Type").isNone = false := by
        simp [Header.Set]
      simp only [hhave, Bool.false_and, Bool.false_eq_true, if_false]
      simp only [Header.Set, Header.Del, canon_lit_ContentType, canon_lit_ContentLength,
        canon_lit_Nosniff]
      rcases allowList_cases k hk with h | ⟨h0, h1, h2, _, h4⟩
      · subst h
        simp [hinf]
      · rw [if_neg h4, if_neg h1, if_neg h2, hval, if_neg (by simp [h0])]
    | some c =>
      obtain ⟨w, hs, hst, _, heff⟩ :=
        serve_informational_found host req c i100 i199 i101 hopen
      have hb : bodyAllowedForStatus w.status = true := by
        simp [hst, bodyAllowedForStatus]
      simp only [headerOf, hs, Option.some_bind, response.writeHeader, heff, hb, if_true, hct,
        Option.isNone_some, Bool.false_and, Bool.false_eq_true, if_false]
      rw [hval, if_neg (by simp)]
  · have hfin : 200 ≤ getStatusCode req ∨ getStatusCode req = 101 := by
      have := (isInformational_iff (getStatusCode req)).not.mp hinf
      omega
    have hrhs : (if k = ContentType ∧ isInformational (getStatusCode req) = true ∧
          host.Open (resolvedFile host req) = none then
        some ["text/plain; charset=utf-8"]
      else some [req.Header.Get k]) = some [req.Header.Get k] := if_neg (by simp [hinf])
    rw [hrhs, headerOf_final host req k hfin h999 _ rfl]
    generalize (addHeadersToResInDebugMode host response.fresh req).handlerHeader = H
      at hval hct
    by_cases h304 : getStatusCode req = 304
    · have hb : bodyAllowedForStatus (getStatusCode req) = false := by
        simp [bodyAllowedForStatus, h304]
      have hsup : suppressedHeaders (getStatusCode req) =
          ["Content-Type", "Content-Length", "Transfer-Encoding"] := by
        simp [suppressedHeaders, h304]
      rw [hb, hsup]
      simp only [Bool.false_eq_true, if_false, List.foldl, Header.Del, canon_lit_ContentType,
        canon_lit_ContentLength, canon_lit_TransferEncoding]
      rcases allowList_cases k hk with h | ⟨h0, h1, h2, h3, _⟩
      · subst h
        simp [h304]
      · rw [if_neg h3, if_neg h2, if_neg h1, hval, if_neg (by simp [h0])]
    · have hrhs2 : (if k = ContentType ∧ getStatusCode req = 304 then none
          else some [req.Header.Get k]) = some [req.Header.Get k] := if_neg (by simp [h304])
      rw [hrhs2]
      cases hb : bodyAllowedForStatus (getStatusCode req) with
      | false =>
        have hsup : suppressedHeaders (getStatusCode req) =
            ["Content-Length", "Transfer-Encoding"] := by
          simp [suppressedHeaders, h304, hb]
        rw [hsup]
        simp only [Bool.false_eq_true, if_false, List.foldl, Header.Del,
          canon_lit_ContentLength, canon_lit_TransferEncoding]
        have hne : CanonicalMIMEHeaderKey k ≠ "Content-Length" ∧
            CanonicalMIMEHeaderKey k ≠ "Transfer-Encoding" := by
          rcases allowList_cases k hk with h | ⟨_, _, h2, h3, _⟩
          · subst h; decide
          · exact ⟨h2, h3⟩
        rw [if_neg hne.2, if_neg hne.1, hval]
      | true =>
        simp only [if_true, hct, Option.isNone_some, Bool.false_and, Bool.false_eq_true,
          if_false]
        exact hval

theorem headerOf_nondebug_final (host : Host) (req : Request) (k : String)
    (hd : isDeBugMode host = false)
    (h200 : 200 ≤ getStatusCode req) (h999 : getStatusCode req ≤ 999) :
    headerOf (serve host req) k =
      if CanonicalMIMEHeaderKey k = "Content-Type" ∧
          ¬ (getStatusCode req = 204 ∨ getStatusCode req = 304 ∨ resolvedBody host req = "")
      then some [host.DetectContentType (resolvedBody host req)] else none := by
  rw [headerOf_final host req k (Or.inl h200) h999 _ (start_header_nondebug host req hd)]
  by_cases h204 : getStatusCode req = 204
  · simp [h204, bodyAllowedForStatus, suppressedHeaders, Header.Del, Header.empty]
  · by_cases h304 : getStatusCode req = 304
    · simp [h304, bodyAllowedForStatus, suppressedHeaders, Header.Del, Header.empty]
    · by_cases hbody : resolvedBody host req = ""
      · simp [h204, h304, hbody, bodyAllowed_of _ h200 h204 h304, Header.empty, Header.Get]
      · simp [h204, h304, hbody, bodyAllowed_of _ h200 h204 h304, Header.empty, Header.Get,
          Header.Set]

theorem headerOf_nondebug_contentType (host : Host) (req : Request)
    (hd : isDeBugMode host = false) :
    headerOf (serve host req) ContentType =
      if getStatusCode req < 100 ∨ getStatusCode req > 999 then none
      else if isInformational (getStatusCode req) = true ∧
          host.Open (resolvedFile host req) = none then
        some ["text/plain; charset=utf-8"]
      else if getStatusCode req = 101 ∨ getStatusCode req = 204 ∨ getStatusCode req = 304 ∨
          resolvedBody host req = "" then none
      else some [host.DetectContentType (resolvedBody host req)] := by
  have hH := start_header_nondebug host req hd
  by_cases hout : getStatusCode req < 100 ∨ getStatusCode req > 999
  · rw [if_pos hout, serve_none host req hout]
    rfl
  · rw [if_neg hout]
    by_cases hinf : isInformational (getStatusCode req) = true
    · obtain ⟨i100, i199, i101⟩ := (isInformational_iff _).mp hinf
      have h204 : getStatusCode req ≠ 204 := by omega
      have h304 : getStatusCode req ≠ 304 := by omega
      cases hopen : host.Open (resolvedFile host req) with
      | none =>
        obtain ⟨w, hs, hst, _, heff⟩ :=
          serve_informational_missing host req i100 i199 i101 hopen
        rw [hH] at heff
        have hb : bodyAllowedForStatus w.status = true := by
          simp [hst, bodyAllowedForStatus]
        rw [if_pos ⟨hinf, rfl⟩]
        simp [headerOf, hs, response.writeHeader, heff, hb, Header.Set, Header.Del,
          Header.empty]
      | some c =>
        obtain ⟨w, hs, hst, hwr, heff⟩ :=
          serve_informational_found host req c i100 i199 i101 hopen
        rw [hH] at heff
        have hb : bodyAllowedForStatus w.status = true := by
          simp [hst, bodyAllowedForStatus]
        have hbody : resolvedBody host req = c := by simp [resolvedBody, hopen]
        rw [if_neg (by simp), hbody]
        by_cases hc : c = ""
        · simp [headerOf, hs, response.writeHeader, heff, hb, hwr, hc, Header.empty,
            Header.Get]
        · simp [headerOf, hs, response.writeHeader, heff, hb, hwr, hc, Header.empty,
            Header.Get, Header.Set, i101, h204, h304]
    · have hfin : 200 ≤ getStatusCode req ∨ getStatusCode req = 101 := by
        have := (isInformational_iff (getStatusCode req)).not.mp hinf
        omega
      rw [if_neg (by simp [hinf]),
        headerOf_final host req ContentType hfin (by omega) _ hH]
      by_cases h101 : getStatusCode req = 101
      · simp [h101, bodyAllowedForStatus, suppressedHeaders, Header.Del, Header.empty]
      · have h200 : 200 ≤ getStatusCode req := by omega
        by_cases h204 : getStatusCode req = 204
        · simp [h204, bodyAllowedForStatus, suppressedHeaders, Header.Del, Header.empty]
        · by_cases h304 : getStatusCode req = 304
          · simp [h304, bodyAllowedForStatus, suppressedHeaders, Header.Del, Header.empty]
          · by_cases hbody : resolvedBody host req = ""
            · simp [h101, h204, h304, hbody, bodyAllowed_of _ h200 h204 h304, Header.empty,
                Header.Get]
            · simp [h101, h204, h304, hbody, bodyAllowed_of _ h200 h204 h304, Header.empty,
                Header.Get, Header.Set]

theorem headerOf_nondebug_other (host : Host) (req : Request) (k : String)
    (hd : isDeBugMode host = false) (hk : k ∈ allowList) (hct : k ≠ ContentType) :
    headerOf (serve host req) k = none := by
  have hcanon : CanonicalMIMEHeaderKey k ≠ "Content-Type" ∧
      CanonicalMIMEHeaderKey k ≠ "X-Content-Type-Options" := by
    rcases allowList_cases k hk with h | ⟨_, h1, _, _, h4⟩
    · exact absurd h hct
    · exact ⟨h1, h4⟩
  by_cases hr : 100 ≤ getStatusCode req ∧ getStatusCode req ≤ 999
  · by_cases h200 : 200 ≤ getStatusCode req
    · rw [headerOf_nondebug_final host req k hd h200 hr.2, if_neg (by simp [hcanon.1])]
    · by_cases h101 : getStatusCode req = 101
      · obtain ⟨w, hs, hst, heff, _⟩ := serve_final host req (Or.inr h101) hr.2
        have hb : bodyAllowedForStatus w.status = false := by
          simp [bodyAllowedForStatus, hst, h101]
        rw [start_header_nondebug host req hd] at heff
        simp only [headerOf, hs, Option.some_bind, response.writeHeader, heff, hb,
          Bool.false_eq_true, if_false]
        generalize suppressedHeaders w.status = l
        have hempty : ∀ (l : List String) (H : Header), (∀ x, H x = none) →
            ∀ x, (l.foldl Header.Del H) x = none := by
          intro l
          induction l with
          | nil => intro H hH x; exact hH x
          | cons a l ih =>
            intro H hH x
            apply ih
            intro y
            simp [Header.Del, hH]
        exact hempty l Header.empty (fun _ => rfl) _
      · obtain ⟨w, hw, h1, h2, h3⟩ :=
          errorHandler_informational host req hr.1 (by omega) h101
        have hs : serve host req = some
            { status := w.status
              header := w.writeHeader host
              body := if req.Method = "HEAD" then "" else w.written } := by
          simp only [serve, hw, finishRequest_wrote host req w h1]
        have hb : bodyAllowedForStatus w.status = true := by
          rcases h2 with h2 | h2 <;> simp [h2, bodyAllowedForStatus]
        rw [start_header_nondebug host req hd] at h3
        simp only [headerOf, hs, Option.some_bind, response.writeHeader, hb, if_true]
        rcases h3 with h3 | h3 <;> rw [h3] <;> split <;>
          simp [Header.empty, Header.Set, Header.Del, hcanon.1, hcanon.2]
  · rw [serve_none host req (by omega)]
    rfl

/-! ## The claims -/

/-- C1. For every request, `getStatusCode` returns 404 when the `X-Code` header
is absent or empty or is not a base-10 integer literal, and returns `n` when
`X-Code` is the decimal representation of an integer `n` of the Go type
`int`; there is no check against the range of HTTP status codes, so the
parsed integer is returned unchanged. -/
theorem getStatusCode_resolves (req : Request) :
    (req.Header (CanonicalMIMEHeaderKey CodeHeader) = none → getStatusCode req = 404) ∧
    (req.Header.Get CodeHeader = "" → getStatusCode req = 404) ∧
    (isIntegerLiteral (req.Header.Get CodeHeader) = false → getStatusCode req = 404) ∧
    (∀ n : Int, -2 ^ 63 ≤ n → n < 2 ^ 63 → req.Header.Get CodeHeader = toString n →
      getStatusCode req = n) := by
  have hempty : req.Header.Get CodeHeader = "" → getStatusCode req = 404 := by
    intro h
    simp [getStatusCode, h, Atoi_empty]
  refine ⟨?_, hempty, ?_, ?_⟩
  · intro h
    apply hempty
    simp only [Header.Get, h]
  · intro h
    unfold getStatusCode
    cases ha : Atoi (req.Header.Get CodeHeader) with
    | none => simp only [ha]
    | some v =>
      rw [Atoi_some_literal _ v ha] at h
      exact absurd h (by simp)
  · intro n hlo hhi h
    simp only [getStatusCode, h, ← FormatInt_eq_toString, Atoi_FormatInt n hlo hhi]

/-- C1, at concrete requests: no `X-Code`, `abc`, `503`, `0`, `-1` and
`99999`. -/
theorem getStatusCode_resolves_witness :
    getStatusCode (request "GET" []) = 404 ∧
    getStatusCode (request "GET" [("X-Code", "abc")]) = 404 ∧
    getStatusCode (request "GET" [("X-Code", "503")]) = 503 ∧
    getStatusCode (request "GET" [("X-Code", "0")]) = 0 ∧
    getStatusCode (request "GET" [("X-Code", "-1")]) = -1 ∧
    getStatusCode (request "GET" [("X-Code", "99999")]) = 99999 :=
  ⟨(getStatusCode_resolves _).1 (by decide),
   (getStatusCode_resolves _).2.2.1 (by decide),
   (getStatusCode_resolves _).2.2.2 503 (by decide) (by decide) (by decide),
   (getStatusCode_resolves _).2.2.2 0 (by decide) (by decide) (by decide),
   (getStatusCode_resolves _).2.2.2 (-1) (by decide) (by decide) (by decide),
   (getStatusCode_resolves _).2.2.2 99999 (by decide) (by decide) (by decide)⟩

/-- C2, as stated, fails: for the request without headers on a host with the
MIME table built into Go, the resolved format is `text/html` and the
resolved extension is `.htm`, not `.html`. -/
theorem getExtension_default_counterexample :
    getFormat (request "GET" []) = "text/html" ∧
    getExtension (exampleHost [] []) (getFormat (request "GET" [])) = ".htm" ∧
    getExtension (exampleHost [] []) (getFormat (request "GET" [])) ≠ ".html" := by
  decide

/-- C2, amended. For every request that lacks the `X-Format` header (or has it
empty), `getFormat` returns `text/html`, and `getExtension` applied to it
returns `.html` when the MIME lookup for `text/html` returns an error or no
candidate, and otherwise the first candidate, with a dot put in front if it
has none. -/
theorem getExtension_default (host : Host) (req : Request)
    (h : req.Header.Get FormatHeader = "") :
    getFormat req = "text/html" ∧
    getExtension host (getFormat req) =
      match host.ExtensionsByType "text/html" with
      | (e :: _, none) => dotted e
      | _ => ".html" := by
  have hf : getFormat req = "text/html" := by simp [getFormat, h]
  exact ⟨hf, by rw [hf, getExtension_eq]⟩

/-- C2, amended, at the request without headers: `.htm` under the table built
into Go, `.html` under a table that lists `.html` first. -/
theorem getExtension_default_witness :
    getExtension (exampleHost [] []) (getFormat (request "GET" [])) = ".htm" ∧
    getExtension { exampleHost [] [] with ExtensionsByType := fun _ => ([".html", ".htm"], none) }
      (getFormat (request "GET" [])) = ".html" :=
  ⟨(getExtension_default (exampleHost [] []) (request "GET" []) (by decide)).2,
   (getExtension_default _ (request "GET" []) (by decide)).2⟩

/-- C3, as stated, fails. With the resolved file present: `X-Code: 0` makes
the response writer panic and the client gets no response; `X-Code: 204`
gives status 204 with an empty body; a `HEAD` request gets an empty body;
and `X-Code: 150` does not give status 150 with the content as body. -/
theorem errorHandler_found_counterexample :
    ((customHost [("/tmp/custom/0.json", "zero")]).Open
        (resolvedFile (customHost [("/tmp/custom/0.json", "zero")]) (jsonRequest "GET" "0"))
        = some "zero" ∧
      statusAndBody (serve (customHost [("/tmp/custom/0.json", "zero")])
        (jsonRequest "GET" "0")) = none) ∧
    ((customHost [("/tmp/custom/204.json", "gone")]).Open
        (resolvedFile (customHost [("/tmp/custom/204.json", "gone")]) (jsonRequest "GET" "204"))
        = some "gone" ∧
      statusAndBody (serve (customHost [("/tmp/custom/204.json", "gone")])
        (jsonRequest "GET" "204")) = some (204, "")) ∧
    ((customHost [("/tmp/custom/500.json", "oops")]).Open
        (resolvedFile (customHost [("/tmp/custom/500.json", "oops")]) (jsonRequest "HEAD" "500"))
        = some "oops" ∧
      statusAndBody (serve (customHost [("/tmp/custom/500.json", "oops")])
        (jsonRequest "HEAD" "500")) = some (500, "")) ∧
    ((customHost [("/tmp/custom/150.json", "early")]).Open
        (resolvedFile (customHost [("/tmp/custom/150.json", "early")]) (jsonRequest "GET" "150"))
        = some "early" ∧
      statusAndBody (serve (customHost [("/tmp/custom/150.json", "early")])
        (jsonRequest "GET" "150")) ≠ some (150, "early")) := by
  decide

/-- C3, amended. For every environment and every request other than `HEAD`
whose resolved status code is between 200 and 999 and is neither 204 nor 304:
if the file at `{base}/{code}{ext}` can be opened and has content `c`, the
response has the resolved code as status and exactly `c` as body. -/
theorem errorHandler_serves_file (host : Host) (req : Request) (c : String)
    (hfile : host.Open (resolvedFile host req) = some c)
    (hmethod : req.Method ≠ "HEAD")
    (h200 : 200 ≤ getStatusCode req) (h999 : getStatusCode req ≤ 999)
    (h204 : getStatusCode req ≠ 204) (h304 : getStatusCode req ≠ 304) :
    ∃ r, serve host req = some r ∧ r.status = getStatusCode req ∧ r.body = c := by
  obtain ⟨r, hs, hst, hb⟩ := serve_body host req h200 h999
  refine ⟨r, hs, hst, ?_⟩
  rw [hb, if_neg (by simp [hmethod, h204, h304]), resolvedBody, hfile]

/-- C3, amended, at the example of the specification: `ERROR_FILES_PATH` is
`/tmp/custom`, the request is a `GET` with `X-Code: 500` and
`X-Format: application/json`, and `/tmp/custom/500.json` holds `{"e":1}`;
the response has status 500 and that body. -/
theorem errorHandler_serves_file_witness :
    ∃ r, serve (customHost [("/tmp/custom/500.json", "\x7b\"e\":1\x7d")])
        (jsonRequest "GET" "500") = some r ∧
      r.status = getStatusCode (jsonRequest "GET" "500") ∧ r.body = "\x7b\"e\":1\x7d" :=
  errorHandler_serves_file (customHost [("/tmp/custom/500.json", "\x7b\"e\":1\x7d")])
    (jsonRequest "GET" "500") "\x7b\"e\":1\x7d" (by decide) (by decide) (by decide) (by decide)
    (by decide) (by decide)

/-- C4, as stated, fails. With the resolved file absent: `X-Code: 0` makes the
response writer panic and the client gets no response; `X-Code: 204` gives
status 204 with an empty body; a `HEAD` request gets an empty body; and
`X-Code: 150` does not give status 150 with the not-found text. -/
theorem errorHandler_missing_counterexample :
    ((customHost []).Open (resolvedFile (customHost []) (jsonRequest "GET" "0")) = none ∧
      statusAndBody (serve (customHost []) (jsonRequest "GET" "0")) = none) ∧
    ((customHost []).Open (resolvedFile (customHost []) (jsonRequest "GET" "204")) = none ∧
      statusAndBody (serve (customHost []) (jsonRequest "GET" "204")) = some (204, "")) ∧
    ((customHost []).Open (resolvedFile (customHost []) (jsonRequest "HEAD" "500")) = none ∧
      statusAndBody (serve (customHost []) (jsonRequest "HEAD" "500")) = some (500, "")) ∧
    ((customHost []).Open (resolvedFile (customHost []) (jsonRequest "GET" "150")) = none ∧
      statusAndBody (serve (customHost []) (jsonRequest "GET" "150")) ≠
        some (150, "404 page not found\n")) := by
  decide

/-- C4, amended. For every request whose resolved file cannot be opened and
whose resolved status code is between 200 and 999, the response has the
resolved code as status (the 404 of the fallback does not replace it), and
its body is the not-found text `404 page not found` with a line feed, except
that the body is empty when the status is 204 or 304 or the method is
`HEAD`. -/
theorem errorHandler_missing_file (host : Host) (req : Request)
    (hfile : host.Open (resolvedFile host req) = none)
    (h200 : 200 ≤ getStatusCode req) (h999 : getStatusCode req ≤ 999) :
    ∃ r, serve host req = some r ∧ r.status = getStatusCode req ∧
      r.body = if req.Method = "HEAD" ∨ getStatusCode req = 204 ∨ getStatusCode req = 304
        then "" else "404 page not found\n" := by
  obtain ⟨r, hs, hst, hb⟩ := serve_body host req h200 h999
  refine ⟨r, hs, hst, ?_⟩
  rw [hb, resolvedBody, hfile]

/-- C4, amended, at the example of the specification: `X-Code: 500` and
`X-Format: application/json` with `/tmp/custom/500.json` absent give status
500 with the not-found text. -/
theorem errorHandler_missing_file_witness :
    ∃ r, serve (customHost []) (jsonRequest "GET" "500") = some r ∧
      r.status = getStatusCode (jsonRequest "GET" "500") ∧
      r.body = if (jsonRequest "GET" "500").Method = "HEAD" ∨
          getStatusCode (jsonRequest "GET" "500") = 204 ∨
          getStatusCode (jsonRequest "GET" "500") = 304
        then "" else "404 page not found\n" :=
  errorHandler_missing_file (customHost []) (jsonRequest "GET" "500") (by decide) (by decide)
    (by decide)

/-- C5, as stated, fails: with `X-Code` 0, -1 or 99999 the handler is aborted
by the panic of `WriteHeader` on a code that does not have three digits,
and the client gets no response. -/
theorem errorHandler_abort_counterexample :
    (getStatusCode (jsonRequest "GET" "0") = 0 ∧
      (errorHandler (customHost []) response.fresh (jsonRequest "GET" "0")).isOk = false ∧
      (serve (customHost []) (jsonRequest "GET" "0")).isNone = true) ∧
    (getStatusCode (jsonRequest "GET" "-1") = -1 ∧
      (errorHandler (customHost []) response.fresh (jsonRequest "GET" "-1")).isOk = false ∧
      (serve (customHost []) (jsonRequest "GET" "-1")).isNone = true) ∧
    (getStatusCode (jsonRequest "GET" "99999") = 99999 ∧
      (errorHandler (customHost []) response.fresh (jsonRequest "GET" "99999")).isOk = false ∧
      (serve (customHost []) (jsonRequest "GET" "99999")).isNone = true) := by
  decide

/-- C5, amended. For every request whose resolved status code is between 100
and 999, `errorHandler` completes and the client gets a response with a
three digit status and a body; for every request whose resolved status code
is below 100 or above 999, the validity check of the response writer aborts
the handler and the client gets no response. -/
theorem errorHandler_completes (host : Host) (req : Request) :
    (100 ≤ getStatusCode req → getStatusCode req ≤ 999 →
      (∃ h, errorHandler host response.fresh req = .ok h) ∧
      ∃ r, serve host req = some r ∧ 100 ≤ r.status ∧ r.status ≤ 999) ∧
    (getStatusCode req < 100 ∨ getStatusCode req > 999 →
      (∃ msg, errorHandler host response.fresh req = .error msg) ∧ serve host req = none) := by
  refine ⟨?_, fun h => ⟨errorHandler_panics host req h, serve_none host req h⟩⟩
  intro h100 h999
  by_cases hfin : 200 ≤ getStatusCode req ∨ getStatusCode req = 101
  · obtain ⟨w, hw, _⟩ := errorHandler_final host req hfin h999
    obtain ⟨w2, hs, _⟩ := serve_final host req hfin h999
    exact ⟨⟨_, hw⟩, _, hs, h100, h999⟩
  · obtain ⟨w, hw, h1, h2, _⟩ := errorHandler_informational host req h100 (by omega) (by omega)
    have hs : serve host req = some
        { status := w.status
          header := w.writeHeader host
          body := if req.Method = "HEAD" then "" else w.written } := by
      simp only [serve, hw, finishRequest_wrote host req w h1]
    refine ⟨⟨_, hw⟩, _, hs, ?_⟩
    rcases h2 with h2 | h2 <;> simp [h2]

/-- C5, amended, at `X-Code: 500` (a response with status 500) and at
`X-Code: 0` (no response). -/
theorem errorHandler_completes_witness :
    (∃ r, serve (customHost []) (jsonRequest "GET" "500") = some r ∧
      100 ≤ r.status ∧ r.status ≤ 999) ∧
    serve (customHost []) (jsonRequest "GET" "0") = none :=
  ⟨((errorHandler_completes (customHost []) (jsonRequest "GET" "500")).1
      (by decide) (by decide)).2,
   ((errorHandler_completes (customHost []) (jsonRequest "GET" "0")).2 (by decide)).2⟩

/-- C6. For every format string and every MIME lookup, whether it returns an
error, no candidate, or candidates with or without a leading dot,
`getExtension` returns a string that begins with `.`. -/
theorem getExtension_begins_with_dot (host : Host) (format : String) :
    beginsWithDot (getExtension host format) := by
  rw [getExtension_eq]
  split
  · exact dotted_beginsWithDot _
  · exact ⟨"html", rfl⟩

/-- C7. For every format string, `getExtension` returns `.html` when the MIME
lookup returns an error or returns zero candidates, and otherwise returns
the first candidate, with `.` put in front only if the candidate does not
already begin with `.`. -/
theorem getExtension_policy (host : Host) (format : String) :
    ((host.ExtensionsByType format).2.isSome = true → getExtension host format = ".html") ∧
    ((host.ExtensionsByType format).1 = [] → getExtension host format = ".html") ∧
    (∀ e rest, host.ExtensionsByType format = (e :: rest, none) →
      getExtension host format = if e.data.head? = some '.' then e else "." ++ e) := by
  rw [getExtension_eq]
  rcases hl : host.ExtensionsByType format with ⟨cext, err⟩
  refine ⟨?_, ?_, ?_⟩
  · intro h
    cases err with
    | none => simp at h
    | some msg => cases cext <;> rfl
  · intro h
    simp only at h
    subst h
    rfl
  · intro e rest h
    simp only [Prod.mk.injEq] at h
    obtain ⟨h1, h2⟩ := h
    subst h1 h2
    rfl

/-- C7, at concrete lookups: an error, no candidate, a candidate with a dot
and a candidate without one. -/
theorem getExtension_policy_witness :
    getExtension (exampleHost [] []) "" = ".html" ∧
    getExtension (exampleHost [] []) "text/unknown" = ".html" ∧
    getExtension (exampleHost [] []) "application/json" = ".json" ∧
    getExtension { exampleHost [] [] with ExtensionsByType := fun _ => (["txt"], none) }
      "text/plain" = ".txt" :=
  ⟨(getExtension_policy (exampleHost [] []) "").1 (by decide),
   (getExtension_policy (exampleHost [] []) "text/unknown").2.1 (by decide),
   (getExtension_policy (exampleHost [] []) "application/json").2.2 ".json" [] (by decide),
   (getExtension_policy _ "text/plain").2.2 "txt" [] rfl⟩

/-- C8. For every base string, integer code and extension string,
`getAbsoluteErrorPath base code ext` is `base`, `/`, the decimal
representation of `code` and `ext` put together, nothing else added or
removed; in particular `getAbsoluteErrorPath "./errors" 404 ".html"` is
`./errors/404.html`. -/
theorem getAbsoluteErrorPath_format (base : String) (code : Int) (ext : String) :
    getAbsoluteErrorPath base code ext = base ++ "/" ++ toString code ++ ext ∧
    getAbsoluteErrorPath "./errors" 404 ".html" = "./errors/404.html" :=
  ⟨getAbsoluteErrorPath_eq base code ext, by decide⟩

/-- C9, as stated, fails. Outside debug mode the response to a request
without headers carries a `Content-Type` (sniffed from the body). In debug
mode `X-Code: 0` leaves the client without a response, hence without the
headers; with `X-Code: 304` the response does not carry the `Content-Type`
of the request; and with `X-Code: 150` and the resolved file absent the
`Content-Type` on the response is the one `http.NotFound` sets, not the one
of the request. -/
theorem debug_headers_counterexample :
    (isDeBugMode (customHost []) = false ∧
      headerOf (serve (customHost []) (request "GET" [])) ContentType ≠ none) ∧
    (isDeBugMode (debugHost []) = true ∧
      (request "GET" [("X-Code", "0"), ("X-Request-Id", "abc")]).Header.Get RequestID = "abc" ∧
      (serve (debugHost []) (request "GET" [("X-Code", "0"), ("X-Request-Id", "abc")])).isNone
        = true ∧
      headerOf (serve (debugHost []) (request "GET" [("X-Code", "0"), ("X-Request-Id", "abc")]))
        RequestID = none) ∧
    (isDeBugMode (debugHost []) = true ∧
      (request "GET" [("X-Code", "304"), ("Content-Type", "a/b")]).Header.Get ContentType
        = "a/b" ∧
      headerOf (serve (debugHost []) (request "GET" [("X-Code", "304"), ("Content-Type", "a/b")]))
        ContentType = none) ∧
    (isDeBugMode (debugHost []) = true ∧
      (request "GET" [("X-Code", "150"), ("Content-Type", "a/b")]).Header.Get ContentType
        = "a/b" ∧
      (debugHost []).Open (resolvedFile (debugHost [])
        (request "GET" [("X-Code", "150"), ("Content-Type", "a/b")])) = none ∧
      headerOf (serve (debugHost []) (request "GET" [("X-Code", "150"), ("Content-Type", "a/b")]))
        ContentType = some ["text/plain; charset=utf-8"]) := by
  decide

/-- C9, amended. In debug mode, for every request whose resolved status code
is between 100 and 999, the response carries each of the nine allow-listed
headers with exactly the value the request has for it (the empty string when
the request lacks it), with two exceptions, both for `Content-Type`: a
response with status 304 does not carry it, and when the resolved code is an
informational one (1xx other than 101) and the resolved file cannot be
opened, it holds the `text/plain; charset=utf-8` of `http.NotFound`. Outside
debug mode the eight allow-listed headers other than `Content-Type` never
appear on the response, and `Content-Type` is never the value of the request:
it is absent when there is no response (code below 100 or above 999) or no
body is written (code 101, 204 or 304, or an empty file), it is the
`text/plain; charset=utf-8` of `http.NotFound` when the code is informational
and the file cannot be opened, and otherwise it is the type the server
sniffs from the body. -/
theorem debug_headers (host : Host) (req : Request) :
    (isDeBugMode host = true → 100 ≤ getStatusCode req → getStatusCode req ≤ 999 →
      ∀ k ∈ allowList, headerOf (serve host req) k =
        if k = ContentType ∧ getStatusCode req = 304 then none
        else if k = ContentType ∧ isInformational (getStatusCode req) = true ∧
            host.Open (resolvedFile host req) = none then
          some ["text/plain; charset=utf-8"]
        else some [req.Header.Get k]) ∧
    (isDeBugMode host = false →
      (∀ k ∈ allowList, k ≠ ContentType → headerOf (serve host req) k = none) ∧
      headerOf (serve host req) ContentType =
        if getStatusCode req < 100 ∨ getStatusCode req > 999 then none
        else if isInformational (getStatusCode req) = true ∧
            host.Open (resolvedFile host req) = none then
          some ["text/plain; charset=utf-8"]
        else if getStatusCode req = 101 ∨ getStatusCode req = 204 ∨
            getStatusCode req = 304 ∨ resolvedBody host req = "" then none
        else some [host.DetectContentType (resolvedBody host req)]) :=
  ⟨headerOf_debug host req,
   fun hd => ⟨fun k hk hct => headerOf_nondebug_other host req k hd hk hct,
     headerOf_nondebug_contentType host req hd⟩⟩

/-- C9, amended, at concrete requests. In debug mode with `X-Code: 500` and
`X-Request-ID: abc` the response carries `X-Request-ID: abc` and an empty
`X-Namespace`, and with `X-Code: 101` or `X-Code: 150` it carries
`X-Request-ID: abc` as well; outside debug mode the request with
`X-Code: 500` gets no `X-Request-ID`, and its `Content-Type` is the sniffed
one. -/
theorem debug_headers_witness :
    headerOf (serve (debugHost []) (request "GET" [("X-Code", "500"), ("X-Request-Id", "abc")]))
      RequestID = some ["abc"] ∧
    headerOf (serve (debugHost []) (request "GET" [("X-Code", "500"), ("X-Request-Id", "abc")]))
      Namespace = some [""] ∧
    headerOf (serve (debugHost []) (request "GET" [("X-Code", "101"), ("X-Request-Id", "abc")]))
      RequestID = some ["abc"] ∧
    headerOf (serve (debugHost []) (request "GET" [("X-Code", "150"), ("X-Request-Id", "abc")]))
      RequestID = some ["abc"] ∧
    headerOf (serve (customHost []) (request "GET" [("X-Code", "500"), ("X-Request-Id", "abc")]))
      RequestID = none ∧
    headerOf (serve (customHost []) (request "GET" [("X-Code", "500"), ("X-Request-Id", "abc")]))
      ContentType = some ["text/plain; charset=utf-8"] :=
  ⟨((debug_headers (debugHost []) _).1 (by decide) (by decide) (by decide) RequestID
      (by decide)).trans (by decide),
   ((debug_headers (debugHost []) _).1 (by decide) (by decide) (by decide) Namespace
      (by decide)).trans (by decide),
   ((debug_headers (debugHost []) _).1 (by decide) (by decide) (by decide) RequestID
      (by decide)).trans (by decide),
   ((debug_headers (debugHost []) _).1 (by decide) (by decide) (by decide) RequestID
      (by decide)).trans (by decide),
   ((debug_headers (customHost []) _).2 (by decide)).1 RequestID (by decide) (by decide),
   ((debug_headers (customHost []) _).2 (by decide)).2.trans (by decide)⟩

/-- C10. For every request, the path `errorHandler` passes to `os.Open` (it
opens one file when the resolved status code has three digits, and none
when the response writer panics before) is `base ++ "/" ++ s ++ ext`, where
`s`, the resolved status code in decimal, is an optional `-` followed by
decimal digits, and `ext` is either `.html` or the first entry the MIME
lookup returns for the resolved format, with a dot in front; the name
`s ++ ext` does not begin with a dot, and if no extension of the MIME table
contains `/`, neither does the name, so the file is looked up in the base
directory itself. -/
theorem errorHandler_path_confined (host : Host) (req : Request) :
    openedPaths host req =
      (if 100 ≤ getStatusCode req ∧ getStatusCode req ≤ 999 then
        [getBaseErrorFilePath host ++ "/" ++ toString (getStatusCode req) ++
          getExtension host (getFormat req)]
      else []) ∧
    isSignedDigits (toString (getStatusCode req)) = true ∧
    (getExtension host (getFormat req) = ".html" ∨
      ∃ e rest, host.ExtensionsByType (getFormat req) = (e :: rest, none) ∧
        getExtension host (getFormat req) = dotted e) ∧
    (toString (getStatusCode req) ++ getExtension host (getFormat req)).data.head? ≠ some '.' ∧
    ((∀ format, ∀ e ∈ (host.ExtensionsByType format).1, '/' ∉ e.data) →
      '/' ∉ (toString (getStatusCode req) ++ getExtension host (getFormat req)).data) := by
  have hext : getExtension host (getFormat req) = ".html" ∨
      ∃ e rest, host.ExtensionsByType (getFormat req) = (e :: rest, none) ∧
        getExtension host (getFormat req) = dotted e := by
    rw [getExtension_eq]
    rcases hl : host.ExtensionsByType (getFormat req) with ⟨cext, err⟩
    cases err with
    | some msg => left; cases cext <;> rfl
    | none =>
      cases cext with
      | nil => left; rfl
      | cons e rest => right; exact ⟨e, rest, rfl, rfl⟩
  have hne := formatBits_ne_nil (getStatusCode req).natAbs (getStatusCode req).natAbs
  refine ⟨openedPaths_eq host req, ?_, hext, ?_, ?_⟩
  · rw [← FormatInt_eq_toString]; exact FormatInt_signedDigits _
  · rw [← FormatInt_eq_toString, String.data_append]
    have hh := FormatInt_head (getStatusCode req)
    cases hd : (FormatInt (getStatusCode req)).data with
    | nil =>
      unfold FormatInt at hd
      split at hd
      · simp at hd
      · exact absurd hd hne
    | cons a l =>
      rw [hd] at hh
      simpa using hh
  · intro htable
    rw [← FormatInt_eq_toString, String.data_append, List.mem_append, not_or]
    constructor
    · intro hmem
      rcases FormatInt_chars _ _ hmem with h | h
      · exact absurd h (by decide)
      · exact absurd h (by decide)
    · rcases hext with h | ⟨e, rest, hl, h⟩
      · rw [h]; decide
      · rw [h]
        apply dotted_no_slash
        apply htable (getFormat req) e
        rw [hl]; simp

/-- C10, at the request `X-Code: 500`, `X-Format: application/json` on a
host with the MIME table built into Go and base `/tmp/custom`: the handler
opens `/tmp/custom/500.json`, and the name holds no `/`. -/
theorem errorHandler_path_confined_witness :
    openedPaths (customHost []) (jsonRequest "GET" "500") = ["/tmp/custom/500.json"] ∧
    '/' ∉ (toString (getStatusCode (jsonRequest "GET" "500")) ++
      getExtension (customHost []) (getFormat (jsonRequest "GET" "500"))).data :=
  ⟨(errorHandler_path_confined (customHost []) (jsonRequest "GET" "500")).1.trans (by decide),
   (errorHandler_path_confined (customHost []) (jsonRequest "GET" "500")).2.2.2.2
     builtin_no_slash⟩

end CustomErrorPages
